import Mathlib

/-!
# Verification of the PYP-Imagesextractor field-extraction engine

Shallow embedding of the two extraction scripts (`script.py`, `script2.py`):
a small backtracking regular-expression engine with Python `re` semantics
(leftmost match, alternatives in order, greedy repetition, `re.IGNORECASE`
for literals), the text-normalisation step, the per-field extraction
functions of both variants and the per-image batch loop.

All definitions are executable; theorems at the end settle the claims.
-/

/-- Regular expressions, as used by the two scripts.  `chr` literals are
matched case-insensitively (all source patterns use `re.IGNORECASE`);
character classes in the source patterns are case-symmetric. -/
inductive RE where
  | emp : RE
  | eps : RE
  | chr : Char → RE
  | cls : (Char → Bool) → RE
  | seq : RE → RE → RE
  | alt : RE → RE → RE
  | star : RE → RE
  | grp : RE → RE

/-- Case-folded character code (ASCII case folding, as `re.IGNORECASE`
applies to the ASCII literals appearing in the source patterns). -/
def lowerCode (c : Char) : Nat :=
  if 65 ≤ c.toNat ∧ c.toNat ≤ 90 then c.toNat + 32 else c.toNat

/-- Number of capture groups of a pattern (`re.findall` returns full
matches when a pattern has no group, group values otherwise). -/
def RE.numGroups : RE → Nat
  | .emp => 0
  | .eps => 0
  | .chr _ => 0
  | .cls _ => 0
  | .seq a b => a.numGroups + b.numGroups
  | .alt a b => a.numGroups + b.numGroups
  | .star a => a.numGroups
  | .grp a => a.numGroups + 1

/-- One result of the matcher: consumed-length bookkeeping is done in the
continuation; a final result is the matched text and the group-1 capture. -/
abbrev MRes := List Char × Option (List Char)

/-- Backtracking matcher in continuation-passing style, Python `re`
semantics: alternatives tried left to right, `star` greedy (an iteration
is tried before the empty expansion), first success wins.  The
continuation receives the number of consumed characters, the group-1
capture so far and the rest of the input.  `fuel` only bounds recursion
depth (it is structural so that the kernel can evaluate the definition);
callers pass ample fuel. -/
def mrun : Nat → RE → List Char → Option (List Char) →
    (Nat → Option (List Char) → List Char → Option MRes) → Option MRes
  | 0, _, _, _, _ => none
  | _ + 1, .emp, _, _, _ => none
  | _ + 1, .eps, s, g, k => k 0 g s
  | _ + 1, .chr c, s, g, k =>
    match s with
    | [] => none
    | a :: s1 => if lowerCode a == lowerCode c then k 1 g s1 else none
  | _ + 1, .cls p, s, g, k =>
    match s with
    | [] => none
    | a :: s1 => if p a then k 1 g s1 else none
  | fuel + 1, .seq r1 r2, s, g, k =>
    mrun fuel r1 s g (fun n1 g1 s1 =>
      mrun fuel r2 s1 g1 (fun n2 g2 s2 => k (n1 + n2) g2 s2))
  | fuel + 1, .alt r1 r2, s, g, k =>
    match mrun fuel r1 s g k with
    | some res => some res
    | none => mrun fuel r2 s g k
  | fuel + 1, .grp r, s, g, k =>
    mrun fuel r s g (fun n _ s1 => k n (some (s.take n)) s1)
  | fuel + 1, .star r, s, g, k =>
    match mrun fuel r s g (fun n1 g1 s1 =>
        if n1 == 0 then none
        else mrun fuel (.star r) s1 g1 (fun n2 g2 s2 => k (n1 + n2) g2 s2)) with
    | some res => some res
    | none => k 0 g s

/-- Try to match `r` at the start of `s`; on success return the matched
text and the group-1 capture. -/
def matchHead (r : RE) (s : List Char) : Option MRes :=
  mrun (s.length + 2000) r s none (fun n g _ => some (s.take n, g))

/-- Leftmost match: try each start position left to right
(`re.search` / first element of `re.findall`). -/
def scanFirst (r : RE) : List Char → Option MRes
  | [] => matchHead r []
  | c :: rest =>
    match matchHead r (c :: rest) with
    | some res => some res
    | none => scanFirst r rest

/-- Leftmost match on a string: matched text and group-1 capture. -/
def reFirst (r : RE) (t : String) : Option (String × Option String) :=
  (scanFirst r t.data).map (fun m => (⟨m.1⟩, m.2.map (fun l => ⟨l⟩)))

/-- First element of `re.findall(pat, text, re.IGNORECASE)`: for a
pattern with no capture group the full matched text, otherwise the
group-1 value (`''` when the group did not participate). -/
def findallFirst (r : RE) (t : String) : Option String :=
  (reFirst r t).map (fun m => if r.numGroups == 0 then m.1 else m.2.getD "")

/-- Python whitespace (the characters matched by `\s` / stripped by
`str.strip()`), restricted to the code points relevant here. -/
def isPySpace (c : Char) : Bool :=
  c.toNat ∈ [32, 9, 10, 11, 12, 13, 28, 29, 30, 31, 133, 160, 5760,
    8192, 8193, 8194, 8195, 8196, 8197, 8198, 8199, 8200, 8201, 8202,
    8232, 8233, 8239, 8287, 12288]

/-- The trailing-punctuation trim set of `find_first_match`
(`re.sub(r'[.,:;]+$', '', value)`). -/
def isTrimPunct (c : Char) : Bool :=
  c == '.' || c == ',' || c == ':' || c == ';'

/-- Embeds `str.strip()`. -/
def pyStrip (l : List Char) : List Char :=
  ((l.dropWhile isPySpace).reverse.dropWhile isPySpace).reverse

/-- Embeds `str.strip()` on strings. -/
def pyStripStr (s : String) : String := ⟨pyStrip s.data⟩

/-- Embeds `re.sub(r'[.,:;]+$', '', value)` for a newline-free `value` (the
argument position in `find_first_match` is newline-free, so `$` is
end-of-string): drop the trailing run of trim-set characters. -/
def dropEndPunct (l : List Char) : List Char :=
  (l.reverse.dropWhile isTrimPunct).reverse

/-- Value cleanup of `find_first_match` (script.py lines 149-153):
strip, keep only the part before the first newline, strip again, then
drop trailing `.,:;`. -/
def clean_value (raw : String) : String :=
  ⟨dropEndPunct (pyStrip ((pyStrip raw.data).takeWhile (fun c => c != '\n')))⟩

/-- The function `find_first_match` (script.py lines 139-155): try the patterns in
order; on the first one whose `findall` list is non-empty, return the
cleaned first match. -/
def find_first_match (text : String) : List RE → Option String
  | [] => none
  | p :: rest =>
    match findallFirst p text with
    | some raw => some (clean_value raw)
    | none => find_first_match text rest

/-- Replace each maximal run of characters satisfying `bad` by a single
space (the shape of both `re.sub(r'[^\x00-\x7F]+', ' ', ·)` and
`re.sub(r'\s+', ' ', ·)`). -/
def squashRuns (bad : Char → Bool) : List Char → List Char
  | [] => []
  | [c] => if bad c then [' '] else [c]
  | c :: d :: rest =>
    if bad c then
      (if bad d then squashRuns bad (d :: rest)
       else ' ' :: squashRuns bad (d :: rest))
    else c :: squashRuns bad (d :: rest)

/-- Characters removed by the first cleanup sub (`[^\x00-\x7F]+`). -/
def isNonAscii (c : Char) : Bool := decide (127 < c.toNat)

/-- Text cleanup of `extract_text_from_image` (script.py lines 52-55):
replace non-ASCII runs by a space, collapse whitespace runs to a single
space, strip. -/
def normalize_text (raw : String) : String :=
  ⟨pyStrip (squashRuns isPySpace (squashRuns isNonAscii raw.data))⟩

/-- Embeds `re.sub(r'\s+', ' ', text)` (script2.py line 64; no strip). -/
def collapse_spaces (t : String) : String := ⟨squashRuns isPySpace t.data⟩

/-- Concatenation of a list of patterns. -/
def rcat (rs : List RE) : RE := rs.foldr RE.seq RE.eps

/-- Ordered alternation of a list of patterns (first alternative tried
first, as in Python). -/
def ralts (rs : List RE) : RE := rs.foldr RE.alt RE.emp

/-- A literal string (matched case-insensitively). -/
def rstr (s : String) : RE := rcat (s.data.map RE.chr)

/-- Greedy `r?`. -/
def ropt (r : RE) : RE := RE.alt r RE.eps

/-- Greedy `r+`. -/
def rplus (r : RE) : RE := RE.seq r (RE.star r)

/-- Pattern `\s*`. -/
def rws : RE := RE.star (RE.cls isPySpace)

/-- Pattern `.` : any character except a newline (no DOTALL flag in the source). -/
def rdot : RE := RE.cls (fun c => c != '\n')

/-- Pattern `\d` / `[0-9]` (ASCII digits; the inputs reaching the extractor are
ASCII-only after normalisation). -/
def rdigit : RE := RE.cls Char.isDigit

/-- A character class given by an explicit set of characters. -/
def rchars (s : String) : RE := RE.cls (fun c => s.data.contains c)

/-- Pattern `r{n}`. -/
def rrep (r : RE) (n : Nat) : RE := rcat (List.replicate n r)

/-- Pattern `r{0,n}` for a single-character-class `r` (greedy). -/
def roptn (r : RE) (n : Nat) : RE := rcat (List.replicate n (ropt r))

/-- Pattern `\w` (ASCII approximation of Python word characters). -/
def isWordChar (c : Char) : Bool := c.isAlphanum || c == '_'

/-- Sender rule (script.py line 81):
`(?:From|Sender|Funding Source|Source Acc\.? Title|Paid by|Payer)\s*[:\-]?\s*(.*)`. -/
def pat_sender : RE :=
  rcat [ralts [rstr "From", rstr "Sender", rstr "Funding Source",
      rcat [rstr "Source Acc", ropt (RE.chr '.'), rstr " Title"],
      rstr "Paid by", rstr "Payer"],
    rws, ropt (rchars ":-"), rws, RE.grp (RE.star rdot)]

def sender_patterns : List RE := [pat_sender]

/-- Receiver rule (script.py line 88):
`(?:To|Receiver|Sent to|Beneficiary|Payee|Destination Acc\.? Title)\s*[:\-]?\s*(.*)`. -/
def pat_receiver : RE :=
  rcat [ralts [rstr "To", rstr "Receiver", rstr "Sent to",
      rstr "Beneficiary", rstr "Payee",
      rcat [rstr "Destination Acc", ropt (RE.chr '.'), rstr " Title"]],
    rws, ropt (rchars ":-"), rws, RE.grp (RE.star rdot)]

def receiver_patterns : List RE := [pat_receiver]

/-- First amount rule (script.py line 95):
`(?:Rs\.?|PKR)\s*[\.:]?\s*([0-9,]+\.?[0-9]*)`. -/
def pat_amount1 : RE :=
  rcat [ralts [rcat [rstr "Rs", ropt (RE.chr '.')], rstr "PKR"],
    rws, ropt (rchars ".:"), rws,
    RE.grp (rcat [rplus (rchars "0123456789,"), ropt (RE.chr '.'),
      RE.star rdigit])]

/-- Second amount rule (script.py line 96):
`(?:Amount Sent|Total Amount|Amount)\s*[:\-]?\s*(?:Rs\.?|PKR)?\s*([0-9,]+\.?[0-9]*)`. -/
def pat_amount2 : RE :=
  rcat [ralts [rstr "Amount Sent", rstr "Total Amount", rstr "Amount"],
    rws, ropt (rchars ":-"), rws,
    ropt (ralts [rcat [rstr "Rs", ropt (RE.chr '.')], rstr "PKR"]), rws,
    RE.grp (rcat [rplus (rchars "0123456789,"), ropt (RE.chr '.'),
      RE.star rdigit])]

def amount_patterns : List RE := [pat_amount1, pat_amount2]

/-- First bank rule (script.py line 104), which has no capture group:
`(?:Silk Bank|Easypaisa Bank\-?\d*|NayaPay|.*\*{4,}\d{3,4}|[0-9]{9,14})`. -/
def pat_bank1 : RE :=
  ralts [rstr "Silk Bank",
    rcat [rstr "Easypaisa Bank", ropt (RE.chr '-'), RE.star rdigit],
    rstr "NayaPay",
    rcat [RE.star rdot, rrep (RE.chr '*') 4, RE.star (RE.chr '*'),
      rrep rdigit 3, ropt rdigit],
    rcat [rrep rdigit 9, roptn rdigit 5]]

/-- Second bank rule (script.py line 105):
`(?:Bank\s*Account|Acct\s*No\.?|Account)\s*[:\-]?\s*([\w\-*]+)`. -/
def pat_bank2 : RE :=
  rcat [ralts [rcat [rstr "Bank", rws, rstr "Account"],
      rcat [rstr "Acct", rws, rstr "No", ropt (RE.chr '.')],
      rstr "Account"],
    rws, ropt (rchars ":-"), rws,
    RE.grp (rplus (RE.cls (fun c => isWordChar c || c == '-' || c == '*')))]

def bank_patterns : List RE := [pat_bank1, pat_bank2]

/-- Transaction-id rule (script.py line 112):
`(?:Transaction ID|Trans\.? ID|Tx ID|Ref#|Reference|Ref)\s*[:\-]?\s*([\w\d\-]+)`. -/
def pat_txid : RE :=
  rcat [ralts [rstr "Transaction ID",
      rcat [rstr "Trans", ropt (RE.chr '.'), rstr " ID"],
      rstr "Tx ID", rstr "Ref#", rstr "Reference", rstr "Ref"],
    rws, ropt (rchars ":-"), rws,
    RE.grp (rplus (RE.cls (fun c => isWordChar c || c == '-')))]

def transaction_id_patterns : List RE := [pat_txid]

/-- Reference rule (script.py line 119):
`(?:Ref|Ref#|Reference)\s*[:\-]?\s*([\w\d\-]+)`. -/
def pat_ref : RE :=
  rcat [ralts [rstr "Ref", rstr "Ref#", rstr "Reference"],
    rws, ropt (rchars ":-"), rws,
    RE.grp (rplus (RE.cls (fun c => isWordChar c || c == '-')))]

def reference_patterns : List RE := [pat_ref]

/-- Status rule (script.py line 126):
`(Transaction Successful|Transaction successful|Money has been sent|Successfully Sent)`. -/
def pat_status : RE :=
  RE.grp (ralts [rstr "Transaction Successful", rstr "Transaction successful",
    rstr "Money has been sent", rstr "Successfully Sent"])

def status_patterns : List RE := [pat_status]

/-- Sender override rule (script.py line 134): `(?:by)\s*[:\-]?\s*(.*)`. -/
def override_sender_pattern : RE :=
  rcat [rstr "by", rws, ropt (rchars ":-"), rws, RE.grp (RE.star rdot)]

/-- Python truthiness test on an optional string (`not data["Sender"]`
is true for both `None` and `''`). -/
def pyFalsy : Option String → Bool
  | none => true
  | some s => s == ""

/-- The record filled by `extract_data` (script.py lines 68-76). -/
structure TxData where
  Sender : Option String
  Receiver : Option String
  Amount : Option String
  Bank_Details : Option String
  Transaction_ID : Option String
  Reference_Number : Option String
  Transaction_Status : Option String
deriving DecidableEq, Repr

/-- The function `extract_data` (script.py lines 57-137): one `find_first_match` per
field, then the manual-override pass for `Sender` when the first pass
left it falsy. -/
def extract_data (text : String) : TxData :=
  let sender0 := find_first_match text sender_patterns
  { Sender :=
      if pyFalsy sender0 then find_first_match text [override_sender_pattern]
      else sender0
    Receiver := find_first_match text receiver_patterns
    Amount := find_first_match text amount_patterns
    Bank_Details := find_first_match text bank_patterns
    Transaction_ID := find_first_match text transaction_id_patterns
    Reference_Number := find_first_match text reference_patterns
    Transaction_Status := find_first_match text status_patterns }

/-- Pattern class `[\w &]+` character predicate of the script2 title rules. -/
def isWordSpAmp (c : Char) : Bool := isWordChar c || c == ' ' || c == '&'

/-- script2.py line 68: `Source Acc\.?\s*Title\s*([\w &]+)`. -/
def pat2_src_title : RE :=
  rcat [rstr "Source Acc", ropt (RE.chr '.'), rws, rstr "Title", rws,
    RE.grp (rplus (RE.cls isWordSpAmp))]

/-- script2.py line 72: `Sent by\s*([\w &]+)`. -/
def pat2_sent_by : RE :=
  rcat [rstr "Sent by", rws, RE.grp (rplus (RE.cls isWordSpAmp))]

/-- script2.py line 78: `Destination Acc\.?\s*Title\s*([\w &]+)`. -/
def pat2_dst_title : RE :=
  rcat [rstr "Destination Acc", ropt (RE.chr '.'), rws, rstr "Title", rws,
    RE.grp (rplus (RE.cls isWordSpAmp))]

/-- script2.py line 82: `To\s*([\w &]+)`. -/
def pat2_to : RE := rcat [rstr "To", rws, RE.grp (rplus (RE.cls isWordSpAmp))]

/-- script2.py line 88:
`(?:Total Amount|Amount)\s*(?:Rs\.?\s*)?([\d,]+\.\d{2}|[\d,]+)`. -/
def pat2_amount : RE :=
  rcat [ralts [rstr "Total Amount", rstr "Amount"], rws,
    ropt (rcat [rstr "Rs", ropt (RE.chr '.'), rws]),
    RE.grp (ralts [rcat [rplus (rchars "0123456789,"), RE.chr '.', rdigit, rdigit],
      rplus (rchars "0123456789,")])]

/-- script2.py line 94: `Source Bank\s*([\w]+)`. -/
def pat2_src_bank : RE :=
  rcat [rstr "Source Bank", rws, RE.grp (rplus (RE.cls isWordChar))]

/-- script2.py line 100: `Destination Bank\s*([\w]+)`. -/
def pat2_dst_bank : RE :=
  rcat [rstr "Destination Bank", rws, RE.grp (rplus (RE.cls isWordChar))]

/-- Embeds `str.replace(',', '')`. -/
def removeCommas (s : String) : String := ⟨s.data.filter (fun c => c != ',')⟩

/-- Group 1 of a match result (`m.group(1)`; the script2 groups always
participate when the pattern matches). -/
def group1 (m : String × Option String) : String := m.2.getD ""

/-- The record filled by `extract_clean_data` (script2.py lines 55-61). -/
structure CleanData where
  Sender : Option String
  Receiver : Option String
  Total_Amount : Option String
  Sender_Bank : Option String
  Receiver_Bank : Option String
deriving DecidableEq, Repr

/-- The function `extract_clean_data` (script2.py lines 46-104): collapse whitespace,
then `re.search` chains per field with `.strip()` cleanup only, and a
`.replace(',', '')` on the amount. -/
def extract_clean_data (text0 : String) : CleanData :=
  let text := collapse_spaces text0
  { Sender :=
      match reFirst pat2_src_title text with
      | some m => some (pyStripStr (group1 m))
      | none =>
        match reFirst pat2_sent_by text with
        | some m => some (pyStripStr (group1 m))
        | none => none
    Receiver :=
      match reFirst pat2_dst_title text with
      | some m => some (pyStripStr (group1 m))
      | none =>
        match reFirst pat2_to text with
        | some m => some (pyStripStr (group1 m))
        | none => none
    Total_Amount :=
      match reFirst pat2_amount text with
      | some m => some (pyStripStr (removeCommas (group1 m)))
      | none => none
    Sender_Bank :=
      match reFirst pat2_src_bank text with
      | some m => some (pyStripStr (group1 m))
      | none => none
    Receiver_Bank :=
      match reFirst pat2_dst_bank text with
      | some m => some (pyStripStr (group1 m))
      | none => none }

/-- One input image for the batch loop: its filename and, when the image
is decodable, the raw OCR text the external preprocessing/OCR
collaborators produce for it (`none` models `cv2.imread` failing, which
makes `preprocess_image` raise). -/
structure ImageFile where
  fname : String
  decoded : Option String
deriving Repr

/-- The body of the `__main__` per-image `try` block (script.py lines
172-181): preprocessing + OCR + cleanup + extraction; `none` when the
image is unreadable (the `except` path). -/
def process_image (f : ImageFile) : Option (String × TxData) :=
  f.decoded.map (fun raw => (f.fname, extract_data (normalize_text raw)))

/-- The `__main__` batch loop (script.py lines 171-184): append one row
per successfully processed image, skip failures, keep going. -/
def run_batch (files : List ImageFile) : List (String × TxData) :=
  files.foldl (fun acc f =>
    match process_image f with
    | some row => acc ++ [row]
    | none => acc) []

/-- Generic per-field extraction contract of the Field Extractor, as
configuration data: the field's rules are tried in priority order, the
first rule whose `findall` is non-empty wins, and the variant's value
cleanup is applied to the winning raw value. -/
def firstRuleValue (clean : String → String) (t : String) : List RE → Option String
  | [] => none
  | p :: rest =>
    match findallFirst p t with
    | some raw => some (clean raw)
    | none => firstRuleValue clean t rest

/-- Modelled from the spec: the per-field value of the Field Extractor
contract (priority-ordered rules, first match wins, with the contract's
cleanup: newline truncation, whitespace trim, trailing-punctuation
strip), to be compared with the behaviour of both registry variants. -/
def contractFieldValue (rules : List RE) (t : String) : Option String :=
  firstRuleValue clean_value t rules

/-- Modelled from the spec: the broad six-field registry variant as pure
configuration data fed to the generic contract — ordered rules per
field, the contract cleanup, and the Sender override applied when the
field is still unset (Python-falsy) after its rules. -/
def specExtractBroad (t : String) : TxData :=
  let primary := contractFieldValue sender_patterns t
  { Sender :=
      if pyFalsy primary then contractFieldValue [override_sender_pattern] t
      else primary
    Receiver := contractFieldValue receiver_patterns t
    Amount := contractFieldValue amount_patterns t
    Bank_Details := contractFieldValue bank_patterns t
    Transaction_ID := contractFieldValue transaction_id_patterns t
    Reference_Number := contractFieldValue reference_patterns t
    Transaction_Status := contractFieldValue status_patterns t }

/-- The stricter five-field variant as configuration data fed to the same
generic rule-priority machinery, but with the variant's own cleanup:
whitespace trim only, plus comma removal for the amount field. -/
def specExtractStrict (t0 : String) : CleanData :=
  let t := collapse_spaces t0
  { Sender := firstRuleValue pyStripStr t [pat2_src_title, pat2_sent_by]
    Receiver := firstRuleValue pyStripStr t [pat2_dst_title, pat2_to]
    Total_Amount :=
      firstRuleValue (fun v => pyStripStr (removeCommas v)) t [pat2_amount]
    Sender_Bank := firstRuleValue pyStripStr t [pat2_src_bank]
    Receiver_Bank := firstRuleValue pyStripStr t [pat2_dst_bank] }

/-- Bool check: the string does not start with whitespace. -/
def noLeadWs (s : String) : Bool :=
  match s.data.head? with
  | some c => !isPySpace c
  | none => true

/-- Bool check: the string does not end with whitespace. -/
def noTrailWs (s : String) : Bool :=
  match s.data.getLast? with
  | some c => !isPySpace c
  | none => true

/-- Bool check: the string does not end with a trim-set character. -/
def lastNotPunct (s : String) : Bool :=
  match s.data.getLast? with
  | some c => !isTrimPunct c
  | none => true

/-- Bool check: the string contains no newline. -/
def noNewline (s : String) : Bool := s.data.all (fun c => c != '\n')

/-- Bool check: no two adjacent characters both satisfy `bad`. -/
def noAdjacent (bad : Char → Bool) : List Char → Bool
  | [] => true
  | [_] => true
  | a :: b :: rest => (!(bad a && bad b)) && noAdjacent bad (b :: rest)

/-- The value property the spec claims for extracted fields (non-empty,
fully stripped, no trailing trim-set character), as written. -/
def specTrimmedVal (s : String) : Bool :=
  (!(s == "")) && (pyStrip s.data == s.data) && lastNotPunct s

/-- The example input text of the spec (already in normalized form). -/
def c1_text : String :=
  "From: Alice Khan To: Bob Shah Amount: Rs. 1,250.00 Transaction ID: TXN99123 Transaction Successful"

/-- A five-image batch in which the third image fails to decode. -/
def demo_batch : List ImageFile :=
  [⟨"1.jpg", some "x"⟩, ⟨"2.jpg", some "x"⟩, ⟨"3.jpg", none⟩,
   ⟨"4.jpg", some "x"⟩, ⟨"5.jpg", some "x"⟩]

theorem head?_append_some {l r : List Char} {c : Char} (h : l.head? = some c) :
    (l ++ r).head? = some c := by
  cases l <;> simp_all

theorem head?_dropWhile_false {p : Char → Bool} :
    ∀ {l : List Char} {c : Char}, (l.dropWhile p).head? = some c → p c = false := by
  intro l
  induction l with
  | nil => intro c h; simp at h
  | cons a as ih =>
    intro c h
    rw [List.dropWhile_cons] at h
    cases hpa : p a with
    | true => rw [hpa] at h; simp at h; exact ih h
    | false =>
      rw [hpa] at h
      simp at h
      rw [← h]; exact hpa

theorem dropWhile_eq_self_of_head {p : Char → Bool} {l : List Char}
    (h : ∀ c, l.head? = some c → p c = false) : l.dropWhile p = l := by
  cases l with
  | nil => rfl
  | cons a as => rw [List.dropWhile_cons, h a rfl]; simp

theorem revDropRev_decomp (p : Char → Bool) (l : List Char) :
    l = (l.reverse.dropWhile p).reverse ++ (l.reverse.takeWhile p).reverse := by
  conv_lhs => rw [← l.reverse_reverse,
    ← List.takeWhile_append_dropWhile p l.reverse]
  rw [List.reverse_append]

theorem head?_revDropRev {p : Char → Bool} {l : List Char} {c : Char}
    (h : ((l.reverse.dropWhile p).reverse).head? = some c) : l.head? = some c := by
  conv_lhs => rw [revDropRev_decomp p l]
  exact head?_append_some h

theorem getLast?_revDropRev_false {p : Char → Bool} {l : List Char} {c : Char}
    (h : ((l.reverse.dropWhile p).reverse).getLast? = some c) : p c = false := by
  rw [List.getLast?_reverse] at h
  exact head?_dropWhile_false h

theorem mem_revDropRev {p : Char → Bool} {l : List Char} {c : Char}
    (h : c ∈ (l.reverse.dropWhile p).reverse) : c ∈ l := by
  rw [List.mem_reverse] at h
  have h2 := (List.dropWhile_suffix p).subset h
  simpa using h2

theorem mem_pyStrip {l : List Char} {c : Char} (h : c ∈ pyStrip l) : c ∈ l := by
  have h1 : c ∈ l.dropWhile isPySpace := mem_revDropRev h
  exact (List.dropWhile_suffix isPySpace).subset h1

theorem head?_pyStrip_false {l : List Char} {c : Char}
    (h : (pyStrip l).head? = some c) : isPySpace c = false := by
  exact head?_dropWhile_false (head?_revDropRev h)

theorem getLast?_pyStrip_false {l : List Char} {c : Char}
    (h : (pyStrip l).getLast? = some c) : isPySpace c = false :=
  getLast?_revDropRev_false h

theorem clean_value_head {raw : String} {c : Char}
    (h : (clean_value raw).data.head? = some c) : isPySpace c = false := by
  simp only [clean_value, dropEndPunct] at h
  exact head?_pyStrip_false (head?_revDropRev h)

theorem clean_value_last {raw : String} {c : Char}
    (h : (clean_value raw).data.getLast? = some c) : isTrimPunct c = false := by
  simp only [clean_value, dropEndPunct] at h
  exact getLast?_revDropRev_false h

theorem clean_value_no_nl {raw : String} {c : Char}
    (h : c ∈ (clean_value raw).data) : (c != '\n') = true := by
  simp only [clean_value, dropEndPunct] at h
  have h1 : c ∈ pyStrip ((pyStrip raw.data).takeWhile (fun x => x != '\n')) :=
    mem_revDropRev h
  have h2 := @List.mem_takeWhile_imp Char (fun x => x != '\n')
    (pyStrip raw.data) c (mem_pyStrip h1)
  simpa using h2

theorem squash_mem {bad : Char → Bool} :
    ∀ {l : List Char} {c : Char}, c ∈ squashRuns bad l →
      (c ∈ l ∧ bad c = false) ∨ c = ' ' := by
  intro l
  induction l with
  | nil => intro c h; simp [squashRuns] at h
  | cons a tail ih =>
    intro c h
    cases tail with
    | nil =>
      cases hb : bad a with
      | true => rw [squashRuns, hb] at h; simp at h; right; exact h
      | false =>
        rw [squashRuns, hb] at h; simp at h
        left; exact ⟨by simp [h], h ▸ hb⟩
    | cons d rest =>
      rw [squashRuns] at h
      cases hba : bad a with
      | true =>
        rw [hba] at h
        cases hbd : bad d with
        | true =>
          rw [hbd] at h; simp only [if_pos, if_true] at h
          rcases ih h with ⟨hm, hb⟩ | hsp
          · exact Or.inl ⟨List.mem_cons_of_mem _ hm, hb⟩
          · exact Or.inr hsp
        | false =>
          rw [hbd] at h; simp at h
          rcases h with hsp | h
          · exact Or.inr hsp
          · rcases ih h with ⟨hm, hb⟩ | hsp
            · exact Or.inl ⟨List.mem_cons_of_mem _ hm, hb⟩
            · exact Or.inr hsp
      | false =>
        rw [hba] at h; simp at h
        rcases h with hc | h
        · exact Or.inl ⟨by simp [hc], hc ▸ hba⟩
        · rcases ih h with ⟨hm, hb⟩ | hsp
          · exact Or.inl ⟨List.mem_cons_of_mem _ hm, hb⟩
          · exact Or.inr hsp

theorem squash_head {bad : Char → Bool} {d : Char} (rest : List Char)
    (hd : bad d = false) : (squashRuns bad (d :: rest)).head? = some d := by
  cases rest with
  | nil => rw [squashRuns, hd]; rfl
  | cons e rest' => rw [squashRuns, hd]; rfl

theorem noAdjacent_tail {bad : Char → Bool} {y : Char} {l : List Char}
    (h : noAdjacent bad (y :: l) = true) : noAdjacent bad l = true := by
  cases l with
  | nil => rfl
  | cons z l' =>
    rw [noAdjacent, Bool.and_eq_true] at h
    exact h.2

theorem noAdjacent_cons {bad : Char → Bool} {x : Char} {l : List Char}
    (h1 : noAdjacent bad l = true)
    (h2 : ∀ y, l.head? = some y → (bad x && bad y) = false) :
    noAdjacent bad (x :: l) = true := by
  cases l with
  | nil => rfl
  | cons y l' =>
    rw [noAdjacent, Bool.and_eq_true]
    exact ⟨by simp [h2 y rfl], h1⟩

theorem squash_noAdj {bad : Char → Bool} :
    ∀ (l : List Char), noAdjacent bad (squashRuns bad l) = true := by
  intro l
  induction l with
  | nil => rfl
  | cons a tail ih =>
    cases tail with
    | nil => cases hb : bad a <;> simp [squashRuns, hb, noAdjacent]
    | cons d rest =>
      rw [squashRuns]
      cases hba : bad a with
      | true =>
        cases hbd : bad d with
        | true => simpa using ih
        | false =>
          simp only [if_pos, if_true, if_neg, if_false, Bool.false_eq_true]
          refine noAdjacent_cons ih ?_
          intro y hy
          rw [squash_head rest hbd] at hy
          cases hy
          simp [hbd]
      | false =>
        simp only [Bool.false_eq_true, if_false]
        refine noAdjacent_cons ih ?_
        intro y _
        simp [hba]

theorem noAdjacent_dropWhile {bad p : Char → Bool} :
    ∀ {l : List Char}, noAdjacent bad l = true →
      noAdjacent bad (l.dropWhile p) = true := by
  intro l
  induction l with
  | nil => intro h; simpa using h
  | cons a l' ih =>
    intro h
    rw [List.dropWhile_cons]
    cases hpa : p a with
    | true => simpa using ih (noAdjacent_tail h)
    | false => simpa using h

theorem noAdjacent_iff_chain {bad : Char → Bool} :
    ∀ (l : List Char), noAdjacent bad l = true ↔
      List.Chain' (fun a b => (bad a && bad b) = false) l := by
  intro l
  induction l with
  | nil => simp [noAdjacent]
  | cons a l' ih =>
    cases l' with
    | nil => simp [noAdjacent]
    | cons b l'' =>
      rw [List.chain'_cons, noAdjacent, Bool.and_eq_true, ← ih,
        Bool.not_eq_true']

theorem noAdjacent_reverse {bad : Char → Bool} {l : List Char}
    (h : noAdjacent bad l = true) : noAdjacent bad l.reverse = true := by
  rw [noAdjacent_iff_chain] at h ⊢
  rw [List.chain'_reverse]
  refine List.Chain'.imp ?_ h
  intro a b hab
  show (bad b && bad a) = false
  rwa [Bool.and_comm]

theorem noAdjacent_pyStrip {bad : Char → Bool} {l : List Char}
    (h : noAdjacent bad l = true) : noAdjacent bad (pyStrip l) = true := by
  unfold pyStrip
  exact noAdjacent_reverse (noAdjacent_dropWhile (noAdjacent_reverse
    (noAdjacent_dropWhile h)))

theorem squash_eq_self {bad : Char → Bool} :
    ∀ {l : List Char}, (∀ c ∈ l, bad c = false) → squashRuns bad l = l := by
  intro l
  induction l with
  | nil => intro _; rfl
  | cons a tail ih =>
    intro h
    cases tail with
    | nil => rw [squashRuns, h a (by simp)]; rfl
    | cons d rest =>
      rw [squashRuns, h a (by simp)]
      simp only [Bool.false_eq_true, if_false]
      rw [ih (fun c hc => h c (List.mem_cons_of_mem _ hc))]

theorem squash_eq_self_noAdj {bad : Char → Bool} :
    ∀ {l : List Char}, noAdjacent bad l = true →
      (∀ c ∈ l, bad c = true → c = ' ') → squashRuns bad l = l := by
  intro l
  induction l with
  | nil => intro _ _; rfl
  | cons a tail ih =>
    intro hadj hsp
    cases tail with
    | nil =>
      cases hb : bad a with
      | false => rw [squashRuns, hb]; rfl
      | true => rw [squashRuns, hb, ← hsp a (by simp) hb]; rfl
    | cons d rest =>
      cases hba : bad a with
      | false =>
        rw [squashRuns, hba]
        simp only [Bool.false_eq_true, if_false]
        rw [ih (noAdjacent_tail hadj)
          (fun c hc h => hsp c (List.mem_cons_of_mem _ hc) h)]
      | true =>
        have hd : bad d = false := by
          have h2 := hadj
          rw [noAdjacent, Bool.and_eq_true, Bool.not_eq_true'] at h2
          rcases h2 with ⟨h2, _⟩
          cases hbd : bad d
          · rfl
          · rw [hba, hbd] at h2; simp at h2
        rw [squashRuns, hba, hd]
        simp only [Bool.false_eq_true, if_false, if_pos, if_true]
        rw [← hsp a (by simp) hba,
          ih (noAdjacent_tail hadj)
            (fun c hc h => hsp c (List.mem_cons_of_mem _ hc) h)]

theorem pyStrip_eq_self {l : List Char}
    (h1 : ∀ c, l.head? = some c → isPySpace c = false)
    (h2 : ∀ c, l.getLast? = some c → isPySpace c = false) : pyStrip l = l := by
  unfold pyStrip
  rw [dropWhile_eq_self_of_head h1,
    dropWhile_eq_self_of_head (fun c hc => h2 c (by rwa [← List.head?_reverse]))]
  exact l.reverse_reverse

theorem clean_value_ok (raw : String) :
    noLeadWs (clean_value raw) = true ∧ lastNotPunct (clean_value raw) = true ∧
      noNewline (clean_value raw) = true := by
  refine ⟨?_, ?_, ?_⟩
  · unfold noLeadWs
    cases hh : (clean_value raw).data.head? with
    | none => rfl
    | some c => simp [clean_value_head hh]
  · unfold lastNotPunct
    cases hh : (clean_value raw).data.getLast? with
    | none => rfl
    | some c => simp [clean_value_last hh]
  · unfold noNewline
    rw [List.all_eq_true]
    intro c hc
    exact clean_value_no_nl hc

theorem find_first_match_clean {t : String} :
    ∀ {ps : List RE} {s : String}, find_first_match t ps = some s →
      noLeadWs s = true ∧ lastNotPunct s = true ∧ noNewline s = true := by
  intro ps
  induction ps with
  | nil => intro s h; simp [find_first_match] at h
  | cons p rest ih =>
    intro s h
    rw [find_first_match] at h
    cases hf : findallFirst p t with
    | none => rw [hf] at h; exact ih h
    | some raw =>
      rw [hf] at h
      simp only [Option.some.injEq] at h
      rw [← h]
      exact clean_value_ok raw

theorem normalize_ascii {t : String} {c : Char}
    (hc : c ∈ (normalize_text t).data) : c.toNat ≤ 127 := by
  have h1 : c ∈ squashRuns isPySpace (squashRuns isNonAscii t.data) :=
    mem_pyStrip hc
  rcases squash_mem h1 with ⟨h2, _⟩ | hsp
  · rcases squash_mem h2 with ⟨_, hb⟩ | hsp2
    · exact Nat.le_of_not_lt (of_decide_eq_false hb)
    · subst hsp2; decide
  · subst hsp; decide

theorem normalize_noAdj (t : String) :
    noAdjacent isPySpace (normalize_text t).data = true :=
  noAdjacent_pyStrip (squash_noAdj _)

theorem normalize_head {t : String} {c : Char}
    (h : (normalize_text t).data.head? = some c) : isPySpace c = false := by
  have h2 : (pyStrip (squashRuns isPySpace
      (squashRuns isNonAscii t.data))).head? = some c := h
  exact head?_pyStrip_false h2

theorem normalize_last {t : String} {c : Char}
    (h : (normalize_text t).data.getLast? = some c) : isPySpace c = false := by
  have h2 : (pyStrip (squashRuns isPySpace
      (squashRuns isNonAscii t.data))).getLast? = some c := h
  exact getLast?_pyStrip_false h2

theorem normalize_ws_space {t : String} {c : Char}
    (hc : c ∈ (normalize_text t).data) (hw : isPySpace c = true) : c = ' ' := by
  have h1 : c ∈ squashRuns isPySpace (squashRuns isNonAscii t.data) :=
    mem_pyStrip hc
  rcases squash_mem h1 with ⟨_, hb⟩ | hsp
  · rw [hw] at hb; cases hb
  · exact hsp

set_option maxRecDepth 100000

set_option maxHeartbeats 4000000

/-- C2 (amended): every declared field key of the record is present (the
record type is total in its seven fields), and every non-absent field
value has no leading whitespace, does not end in a trim-set character
(`.,:;`) and contains no newline.  (The value can, however, be empty or
end in whitespace uncovered by the trailing-punctuation strip, which is
what the amendment allows compared to the original claim.) -/
theorem c2_field_values_clean : ∀ (t s : String),
    (extract_data t).Sender = some s ∨ (extract_data t).Receiver = some s ∨
    (extract_data t).Amount = some s ∨ (extract_data t).Bank_Details = some s ∨
    (extract_data t).Transaction_ID = some s ∨
    (extract_data t).Reference_Number = some s ∨
    (extract_data t).Transaction_Status = some s →
    noLeadWs s = true ∧ lastNotPunct s = true ∧ noNewline s = true := by
  intro t s h
  rcases h with h | h | h | h | h | h | h
  · cases hb : pyFalsy (find_first_match t sender_patterns) with
    | true =>
      have h2 : find_first_match t [override_sender_pattern] = some s := by
        simpa [extract_data, hb] using h
      exact find_first_match_clean h2
    | false =>
      have h2 : find_first_match t sender_patterns = some s := by
        simpa [extract_data, hb] using h
      exact find_first_match_clean h2
  all_goals {
    simp only [extract_data] at h
    exact find_first_match_clean h
  }

/-- C2 witness: the theorem applied at a concrete input and field. -/
theorem c2_witness :
    noLeadWs "Bob" = true ∧ lastNotPunct "Bob" = true ∧
      noNewline "Bob" = true :=
  c2_field_values_clean "From: Bob" "Bob" (Or.inl (by decide))

/-- C2 counterexample: on `"From: a ."` the Sender value is `"a "`, which
is neither absent nor a non-empty fully-trimmed string without trailing
trim-set punctuation — it carries trailing whitespace left behind by the
trailing-punctuation strip. -/
theorem c2_counterexample :
    (extract_data "From: a .").Sender = some "a " ∧
      specTrimmedVal "a " = false :=
  ⟨by decide, by decide⟩

/-- C5 (amended): within a field's rule list, rules are tried in priority
order and the first rule producing a match wins (short-circuit), and a
non-empty primary Sender value wins over the override; but the Sender
override is applied not only when no primary rule matched — it is also
applied when the primary value cleans to the empty string, because the
override test uses Python truthiness (`not data["Sender"]`). -/
theorem c5_priority_and_override :
    (∀ (t : String) (p : RE) (ps : List RE) (v : String),
        findallFirst p t = some v →
        find_first_match t (p :: ps) = some (clean_value v)) ∧
    (∀ (t : String) (p : RE) (ps : List RE),
        findallFirst p t = none →
        find_first_match t (p :: ps) = find_first_match t ps) ∧
    (∀ (t v : String), find_first_match t sender_patterns = some v →
        v ≠ "" → (extract_data t).Sender = some v) := by
  refine ⟨?_, ?_, ?_⟩
  · intro t p ps v h
    rw [find_first_match, h]
  · intro t p ps h
    rw [find_first_match, h]
  · intro t v h hne
    have hb : pyFalsy (some v) = false := by
      show (v == "") = false
      exact beq_eq_false_iff_ne.mpr hne
    simp [extract_data, h, hb]

/-- C5 witness: the three parts applied at concrete inputs. -/
theorem c5_witness :
    find_first_match "From: Bob" sender_patterns = some (clean_value "Bob") ∧
    find_first_match "hello world" sender_patterns =
      find_first_match "hello world" [] ∧
    (extract_data "From: Bob").Sender = some "Bob" :=
  ⟨c5_priority_and_override.1 "From: Bob" pat_sender [] "Bob" (by decide),
   c5_priority_and_override.2.1 "hello world" pat_sender [] (by decide),
   c5_priority_and_override.2.2 "From: Bob" "Bob" (by decide) (by decide)⟩

/-- C5 counterexample: on `"Sent by Bob From:."` the primary Sender rule
does produce a match (its cleaned value is `""`), the override rule also
matches, and the extractor returns the override's result `"Bob From"`
instead of the primary rule's result. -/
theorem c5_counterexample :
    find_first_match "Sent by Bob From:." sender_patterns = some "" ∧
    find_first_match "Sent by Bob From:." [override_sender_pattern] =
      some "Bob From" ∧
    (extract_data "Sent by Bob From:.").Sender = some "Bob From" ∧
    ("" : String) ≠ "Bob From" :=
  ⟨by decide, by decide, by decide, by decide⟩

/-- C4 (amended): a rule's capture group, after cleanup, is the extracted
value, but a rule whose matching expression has no capture group does not
yield "no match" — `re.findall` then returns the full matched text, which
becomes the value.  Shown for the group-free first bank rule and for the
grouped sender rule. -/
theorem c4_group_semantics :
    (∀ (t : String) (m : String × Option String),
        reFirst pat_bank1 t = some m →
        find_first_match t bank_patterns = some (clean_value m.1)) ∧
    (∀ (t : String) (m : String × Option String),
        reFirst pat_sender t = some m →
        find_first_match t sender_patterns =
          some (clean_value (m.2.getD ""))) := by
  constructor
  · intro t m h
    have hgn : pat_bank1.numGroups = 0 := by decide
    have hf : findallFirst pat_bank1 t = some m.1 := by
      simp [findallFirst, h, hgn]
    simp only [bank_patterns]
    rw [find_first_match, hf]
  · intro t m h
    have hgn : pat_sender.numGroups = 1 := by decide
    have hf : findallFirst pat_sender t = some (m.2.getD "") := by
      simp [findallFirst, h, hgn]
    simp only [sender_patterns]
    rw [find_first_match, hf]

/-- C4 witness: both parts applied at concrete inputs. -/
theorem c4_witness :
    find_first_match "Silk Bank" bank_patterns =
      some (clean_value "Silk Bank") ∧
    find_first_match "From: Bob" sender_patterns = some (clean_value "Bob") :=
  ⟨c4_group_semantics.1 "Silk Bank" ("Silk Bank", none) (by decide),
   c4_group_semantics.2 "From: Bob" ("From: Bob", some "Bob") (by decide)⟩

/-- C4 counterexample: the first bank rule has no capture group, yet on
input `"Silk Bank"` it yields the full matched text as the Bank_Details
value rather than yielding no match. -/
theorem c4_counterexample :
    RE.numGroups pat_bank1 = 0 ∧
    find_first_match "Silk Bank" bank_patterns = some "Silk Bank" ∧
    (extract_data "Silk Bank").Bank_Details = some "Silk Bank" :=
  ⟨by decide, by decide, by decide⟩

/-- C3 (amended): both variants follow the shared priority-ordered,
first-match-wins rule discipline over immutable registry data — the broad
six-field extractor is exactly the generic contract with its registry and
the contract cleanup plus the Sender override — but the stricter
five-field variant does not share the identical value-cleanup contract:
it trims whitespace only (no newline truncation, no trailing-punctuation
strip), additionally strips commas from the amount, and defines no
override rules. -/
theorem c3_variants_refinement :
    (∀ t, extract_data t = specExtractBroad t) ∧
    (∀ t, extract_clean_data t = specExtractStrict t) := by
  constructor
  · intro t
    have hf : ∀ ps, find_first_match t ps = firstRuleValue clean_value t ps := by
      intro ps
      induction ps with
      | nil => rfl
      | cons p rest ih =>
        rw [find_first_match, firstRuleValue]
        cases hp : findallFirst p t <;> simp [hp, ih]
    simp [extract_data, specExtractBroad, contractFieldValue, hf]
  · intro t
    have h1 : ∀ (p : RE), p.numGroups = 1 →
        findallFirst p (collapse_spaces t) =
          (reFirst p (collapse_spaces t)).map (fun m => m.2.getD "") := by
      intro p hp
      unfold findallFirst
      rw [hp]
      rfl
    have h2 : ∀ (p : RE) (clean : String → String) (rest : List RE),
        p.numGroups = 1 →
        firstRuleValue clean (collapse_spaces t) (p :: rest) =
          (match reFirst p (collapse_spaces t) with
           | some m => some (clean (group1 m))
           | none => firstRuleValue clean (collapse_spaces t) rest) := by
      intro p clean rest hp
      rw [firstRuleValue, h1 p hp]
      cases reFirst p (collapse_spaces t) <;> simp [group1]
    have hext : ∀ {a b : CleanData}, a.Sender = b.Sender →
        a.Receiver = b.Receiver → a.Total_Amount = b.Total_Amount →
        a.Sender_Bank = b.Sender_Bank → a.Receiver_Bank = b.Receiver_Bank →
        a = b := by
      intro a b e1 e2 e3 e4 e5
      cases a; cases b; simp_all
    refine hext ?_ ?_ ?_ ?_ ?_
    · show (match reFirst pat2_src_title (collapse_spaces t) with
        | some m => some (pyStripStr (group1 m))
        | none =>
          match reFirst pat2_sent_by (collapse_spaces t) with
          | some m => some (pyStripStr (group1 m))
          | none => none) =
        firstRuleValue pyStripStr (collapse_spaces t) [pat2_src_title, pat2_sent_by]
      rw [h2 pat2_src_title pyStripStr [pat2_sent_by] (by decide)]
      cases ha : reFirst pat2_src_title (collapse_spaces t) with
      | some m => rfl
      | none =>
        rw [h2 pat2_sent_by pyStripStr [] (by decide)]
        cases hb : reFirst pat2_sent_by (collapse_spaces t) <;> rfl
    · show (match reFirst pat2_dst_title (collapse_spaces t) with
        | some m => some (pyStripStr (group1 m))
        | none =>
          match reFirst pat2_to (collapse_spaces t) with
          | some m => some (pyStripStr (group1 m))
          | none => none) =
        firstRuleValue pyStripStr (collapse_spaces t) [pat2_dst_title, pat2_to]
      rw [h2 pat2_dst_title pyStripStr [pat2_to] (by decide)]
      cases ha : reFirst pat2_dst_title (collapse_spaces t) with
      | some m => rfl
      | none =>
        rw [h2 pat2_to pyStripStr [] (by decide)]
        cases hb : reFirst pat2_to (collapse_spaces t) <;> rfl
    · show (match reFirst pat2_amount (collapse_spaces t) with
        | some m => some (pyStripStr (removeCommas (group1 m)))
        | none => none) =
        firstRuleValue (fun v => pyStripStr (removeCommas v))
          (collapse_spaces t) [pat2_amount]
      rw [h2 pat2_amount (fun v => pyStripStr (removeCommas v)) [] (by decide)]
      cases ha : reFirst pat2_amount (collapse_spaces t) <;> rfl
    · show (match reFirst pat2_src_bank (collapse_spaces t) with
        | some m => some (pyStripStr (group1 m))
        | none => none) =
        firstRuleValue pyStripStr (collapse_spaces t) [pat2_src_bank]
      rw [h2 pat2_src_bank pyStripStr [] (by decide)]
      cases ha : reFirst pat2_src_bank (collapse_spaces t) <;> rfl
    · show (match reFirst pat2_dst_bank (collapse_spaces t) with
        | some m => some (pyStripStr (group1 m))
        | none => none) =
        firstRuleValue pyStripStr (collapse_spaces t) [pat2_dst_bank]
      rw [h2 pat2_dst_bank pyStripStr [] (by decide)]
      cases ha : reFirst pat2_dst_bank (collapse_spaces t) <;> rfl

/-- C3 counterexample: on the same rule content (the strict variant's
amount rule) and the same input, the Field Extractor contract keeps the
comma (`"1,250.00"`) while the strict variant strips it (`"1250.00"`), so
the two variants do not follow the identical contract differing only in
rule content. -/
theorem c3_counterexample :
    contractFieldValue [pat2_amount] "Total Amount Rs. 1,250.00" =
      some "1,250.00" ∧
    (extract_clean_data "Total Amount Rs. 1,250.00").Total_Amount =
      some "1250.00" ∧
    ("1,250.00" : String) ≠ "1250.00" :=
  ⟨by decide, by decide, by decide⟩

/-- C1 counterexample: on the spec's example input (already normalized,
hence newline-free), the greedy `(.*)` captures run to the end of the
string, so Sender is not `"Alice Khan"` and Receiver is not
`"Bob Shah"`. -/
theorem c1_counterexample :
    (extract_data c1_text).Sender ≠ some "Alice Khan" ∧
    (extract_data c1_text).Receiver ≠ some "Bob Shah" :=
  ⟨by decide, by decide⟩

/-- C1 (amended): on the spec's example input the broad extractor returns
Amount `"1,250.00"`, Transaction_ID `"TXN99123"` and Transaction_Status
`"Transaction Successful"` as claimed, but Sender and Receiver each
capture the entire remaining text after their keyword (the `(.*)` capture
runs to the end of the newline-free normalized string). -/
theorem c1_extract_on_example :
    extract_data c1_text =
      { Sender := some "Alice Khan To: Bob Shah Amount: Rs. 1,250.00 Transaction ID: TXN99123 Transaction Successful",
        Receiver := some "Bob Shah Amount: Rs. 1,250.00 Transaction ID: TXN99123 Transaction Successful",
        Amount := some "1,250.00",
        Bank_Details := none,
        Transaction_ID := some "TXN99123",
        Reference_Number := none,
        Transaction_Status := some "Transaction Successful" } := by
  decide

/-- C6: the batch loop appends one row per successfully processed image
in input order and skips failed images entirely; on a five-image batch
whose third image fails to decode, the result table has exactly four
rows, in the order of images 1, 2, 4, 5. -/
theorem c6_batch_skips_failures :
    (∀ files : List ImageFile,
        run_batch files = files.filterMap process_image) ∧
    (run_batch demo_batch).map Prod.fst =
      ["1.jpg", "2.jpg", "4.jpg", "5.jpg"] ∧
    (run_batch demo_batch).length = 4 := by
  have aux : ∀ (fs : List ImageFile) (acc : List (String × TxData)),
      fs.foldl (fun acc f =>
        match process_image f with
        | some row => acc ++ [row]
        | none => acc) acc =
      acc ++ fs.filterMap process_image := by
    intro fs
    induction fs with
    | nil => intro acc; simp
    | cons f fs ih =>
      intro acc
      cases h : process_image f <;>
        simp [List.filterMap_cons, h, ih, List.append_assoc]
  refine ⟨?_, ?_, ?_⟩
  · intro files
    simpa [run_batch] using aux files []
  · decide
  · decide

/-- C7: extraction is a total function that always yields a record, and
an input with no recognizable fields produces the all-absent record in
both variants rather than an error. -/
theorem c7_never_throws_all_absent :
    (∀ t : String, ∃ d : TxData, extract_data t = d) ∧
    extract_data "hello world" =
      { Sender := none, Receiver := none, Amount := none, Bank_Details := none,
        Transaction_ID := none, Reference_Number := none,
        Transaction_Status := none } ∧
    extract_clean_data "hello world" =
      { Sender := none, Receiver := none, Total_Amount := none,
        Sender_Bank := none, Receiver_Bank := none } :=
  ⟨fun t => ⟨extract_data t, rfl⟩, by decide, by decide⟩

/-- C8 counterexample: the cleanup only removes characters above the
7-bit range (`[^\x00-\x7F]`), so a non-printable ASCII control character
such as `\x01` survives normalisation, contradicting the claim that the
output contains no character outside the printable 7-bit range. -/
theorem c8_counterexample :
    normalize_text "a\x01b" = "a\x01b" ∧
    (normalize_text "a\x01b").data.all
      (fun c => decide (32 ≤ c.toNat ∧ c.toNat ≤ 126)) = false :=
  ⟨by decide, by decide⟩

/-- C8 (amended): the output of the normaliser contains no character
outside the 7-bit ASCII range (code points above 127 are removed, not all
non-printable ones), contains no run of whitespace longer than one
character, and is trimmed on both ends. -/
theorem c8_normalize_shape : ∀ t : String,
    (normalize_text t).data.all (fun c => decide (c.toNat ≤ 127)) = true ∧
    noAdjacent isPySpace (normalize_text t).data = true ∧
    noLeadWs (normalize_text t) = true ∧
    noTrailWs (normalize_text t) = true := by
  intro t
  refine ⟨?_, normalize_noAdj t, ?_, ?_⟩
  · rw [List.all_eq_true]
    intro c hc
    exact decide_eq_true (normalize_ascii hc)
  · unfold noLeadWs
    cases hh : (normalize_text t).data.head? with
    | none => rfl
    | some c => simp [normalize_head hh]
  · unfold noTrailWs
    cases hh : (normalize_text t).data.getLast? with
    | none => rfl
    | some c => simp [normalize_last hh]

/-- C9: the normaliser is idempotent. -/
theorem c9_normalize_idempotent : ∀ t : String,
    normalize_text (normalize_text t) = normalize_text t := by
  intro t
  have h1 : squashRuns isNonAscii (normalize_text t).data =
      (normalize_text t).data :=
    squash_eq_self (fun c hc =>
      decide_eq_false (Nat.not_lt.mpr (normalize_ascii hc)))
  have h2 : squashRuns isPySpace (normalize_text t).data =
      (normalize_text t).data :=
    squash_eq_self_noAdj (normalize_noAdj t)
      (fun c hc hw => normalize_ws_space hc hw)
  have h3 : pyStrip (normalize_text t).data = (normalize_text t).data :=
    pyStrip_eq_self (fun c hc => normalize_head hc)
      (fun c hc => normalize_last hc)
  show (⟨pyStrip (squashRuns isPySpace (squashRuns isNonAscii
      (normalize_text t).data))⟩ : String) = normalize_text t
  rw [h1, h2, h3]

/-- C10: the receiver keyword `To` matches case-insensitively as an
unanchored substring, so `"Total Amount Rs. 500.00"`, which contains no
receiver label, still yields a non-absent Receiver value
`"tal Amount Rs. 500.00"`. -/
theorem c10_receiver_matches_total :
    (extract_data "Total Amount Rs. 500.00").Receiver =
      some "tal Amount Rs. 500.00" := by
  decide
